import Mathlib

/-!
Verification of the task-execution and log-streaming core of the Autom6A
repository, shallowly embedded in Lean 4.

The embedding covers:
* the rolling log buffer and snapshot rendering of
  `src/log_handler.py` (`_stream_logs_with_heartbeat`);
* the polling loop of `_stream_logs_with_heartbeat` as a step function
  over an explicit environment trace (clock readings, thread liveness,
  queued messages, stop flag);
* the coordinator state and start/stop operations of `gui.py`
  (`unified_analysis_executor`, `stop_analysis`) together with
  `init_task_state` / `reset_task_state` of `src/log_handler.py`;
* the script rewriting, execution and termination logic of
  `src/executor.py` (`CodeExecutor._clean_script_content`,
  `CodeExecutor.execute`, `CodeExecutor.terminate`), with OS effects
  (file reads and writes, process spawning, signals) represented by an
  explicit environment record and an effect log.

Time is modelled in integer milliseconds; the Python source uses
`time.time()` seconds with thresholds 0.1, 10 and 30, which become
100, 10000 and 30000 below.
-/

namespace Autom6A

/-! ## Rolling buffer (`_stream_logs_with_heartbeat`, log_handler.py)

`MAX_DISPLAY_LINES = 100` and `MAX_HISTORY_LINES = 500` are the constants
of `_stream_logs_with_heartbeat`.  `lastN n l` is Python's `l[-n:]`;
`appendBounded` is one execution of `log_buffer.append(message)` followed
by `if len(log_buffer) > MAX_HISTORY_LINES: log_buffer =
log_buffer[-MAX_HISTORY_LINES:]`, and `drainAll` is the inner
`while not log_queue.empty()` batch-drain loop. -/

def MAX_DISPLAY_LINES : Nat := 100

def MAX_HISTORY_LINES : Nat := 500

/-- Python `l[-n:]`: the last `n` elements of `l` (all of `l` when
`l.length ≤ n`). -/
def lastN {α : Type} (n : Nat) (l : List α) : List α :=
  l.drop (l.length - n)

/-- One append into the rolling buffer, with the history cap applied
exactly as in the source (truncate only when the length exceeds the
bound). -/
def appendBounded {α : Type} (bound : Nat) (buf : List α) (x : α) : List α :=
  let b := buf ++ [x]
  if bound < b.length then lastN bound b else b

/-- Drain a batch of queued messages into the rolling buffer, applying
the history cap after each append, as in the batch-drain loop of
`_stream_logs_with_heartbeat`. -/
def drainAll {α : Type} (bound : Nat) (buf : List α) (msgs : List α) : List α :=
  msgs.foldl (appendBounded bound) buf

/-- Number of earlier lines reported by the truncation banner:
`len(log_buffer) - MAX_DISPLAY_LINES` when positive, else no banner
(modelled as 0, matching the `if len(log_buffer) > MAX_DISPLAY_LINES`
guard in the source). -/
def truncCount {α : Type} (buf : List α) : Nat :=
  buf.length - MAX_DISPLAY_LINES

/-! ## The cancellation signal and coordinator state
(`gui.py` with `src/log_handler.py`)

The module-level state of `log_handler.py` (`task_running`,
`_task_start_time`, `current_thread`, `stop_flag`, `log_queue`) together
with the start/stop entry points of `gui.py`
(`unified_analysis_executor`, `stop_analysis`) and the teardown
(`reset_task_state`, run by the worker's own `finally` block). -/

structure CoordState where
  taskRunning : Bool
  startTime : Option Nat
  currentThread : Option Nat
  stopFlag : Bool
  queue : List String
deriving DecidableEq, Repr

/-- Model of `init_task_state` in log_handler.py: sets `task_running`, records the
start time, clears the log queue. -/
def initTaskState (now : Nat) (st : CoordState) : CoordState :=
  { st with taskRunning := true, startTime := some now, queue := [] }

/-- Model of `reset_task_state` in log_handler.py: the teardown run exactly once
by the execution thread's own `finally` block. -/
def resetTaskState (st : CoordState) : CoordState :=
  { st with taskRunning := false, startTime := none,
            currentThread := none, stopFlag := false }

inductive StartResult where
  | missingConfig
  | missingApiKey
  | alreadyRunning
  | started
deriving DecidableEq, Repr

/-- A start request as `unified_analysis_executor` sees it: whether the
required config keys are present, whether an API key was supplied, the
clock reading at start, and the identity of the spawned worker thread. -/
structure StartReq where
  configComplete : Bool
  apiKeyPresent : Bool
  now : Nat
  threadId : Nat
deriving DecidableEq, Repr

/-- Model of `unified_analysis_executor` up to the launch of the worker thread:
config validation, API-key validation, the `is_task_running()` guard,
then `init_task_state()`, `stop_flag.clear()`, and
`set_current_thread(thread)`. -/
def startTask (st : CoordState) (r : StartReq) : CoordState × StartResult :=
  if !r.configComplete then (st, .missingConfig)
  else if !r.apiKeyPresent then (st, .missingApiKey)
  else if st.taskRunning then (st, .alreadyRunning)
  else
    let st1 := initTaskState r.now st
    let st2 := { st1 with stopFlag := false }
    ({ st2 with currentThread := some r.threadId }, .started)

/-- Model of `stop_analysis` in gui.py: report "nothing to stop" when no task is
running, otherwise set the stop flag.  The boolean result records
whether a stop was actually issued. -/
def requestStop (st : CoordState) : CoordState × Bool :=
  if !st.taskRunning then (st, false)
  else ({ st with stopFlag := true }, true)

/-- The entry points that mutate the coordinator state. -/
inductive CoordEvent where
  | start (r : StartReq)
  | stop
  | taskDone
deriving DecidableEq, Repr

def applyEvent (st : CoordState) : CoordEvent → CoordState
  | .start r => (startTask st r).1
  | .stop => (requestStop st).1
  | .taskDone => resetTaskState st

def applyEvents (st : CoordState) (es : List CoordEvent) : CoordState :=
  es.foldl applyEvent st

/-! ## Script rewriting (`CodeExecutor._clean_script_content`, executor.py)

Text is `List Char`.  `pySplitNL` is Python's `content.split('\n')`,
`pyJoinNL` is `'\n'.join(lines)`, `pyStrip` is `line.strip()`, and
`containsSub needle hay` is Python's `needle in hay`. -/

/-- Python whitespace as stripped by `str.strip()`. -/
def isPySpace (c : Char) : Bool :=
  c == ' ' || c == '\t' || c == '\n' || c == '\r' || c == '\x0b' || c == '\x0c'

/-- Python `line.strip()`. -/
def pyStrip (l : List Char) : List Char :=
  ((l.dropWhile isPySpace).reverse.dropWhile isPySpace).reverse

/-- Python substring containment `needle in hay`. -/
def containsSub (needle : List Char) : List Char → Bool
  | [] => needle.isEmpty
  | c :: rest => needle.isPrefixOf (c :: rest) || containsSub needle rest

def pySplitAux (cur : List Char) : List Char → List (List Char)
  | [] => [cur.reverse]
  | c :: rest =>
    if c = '\n' then cur.reverse :: pySplitAux [] rest
    else pySplitAux (c :: cur) rest

/-- Python `content.split('\n')`. -/
def pySplitNL (s : List Char) : List (List Char) :=
  pySplitAux [] s

/-- Python `'\n'.join(lines)`. -/
def pyJoinNL : List (List Char) → List Char
  | [] => []
  | [l] => l
  | l :: ls => l ++ '\n' :: pyJoinNL ls

/-- The environment-activation directive deduplicated by
`_clean_script_content`. -/
def activationDirective : List Char := "mamba activate abc_runtime".data

/-- The conda-hook directive removed unconditionally by
`_clean_script_content`. -/
def condaHookDirective : List Char := "conda shell.bash hook".data

def isActivationLine (l : List Char) : Bool :=
  containsSub activationDirective (pyStrip l)

def isCondaHookLine (l : List Char) : Bool :=
  containsSub condaHookDirective (pyStrip l)

/-- The per-line pass of `_clean_script_content`.  `seenAct` models the
`seen_activations` set (which can only ever contain `'abc_runtime'`). -/
def cleanLines (seenAct : Bool) : List (List Char) → List (List Char)
  | [] => []
  | l :: ls =>
    if isActivationLine l then
      if seenAct then cleanLines seenAct ls else l :: cleanLines true ls
    else if isCondaHookLine l then cleanLines seenAct ls
    else l :: cleanLines seenAct ls

/-- Model of `CodeExecutor._clean_script_content`: split on newlines, keep only
the first `mamba activate abc_runtime` line, drop every
`conda shell.bash hook` line, rejoin. -/
def cleanScriptContent (content : List Char) : List Char :=
  pyJoinNL (cleanLines false (pySplitNL content))

/-! ## Execution (`CodeExecutor.execute` / `CodeExecutor.terminate`,
executor.py)

OS effects are represented by an environment record describing the
outcome of each effectful step and by a log of filesystem/process
operations.  The initial `open(self.bash_code_path, 'r')` and the write
of the rewritten sibling script sit outside the `try` block in the
source, so their failures surface as `Except.error`; everything inside
the `try` is captured into the returned text. -/

/-- Contents of `self.code_prefix` in `CodeExecutor.__init__`. -/
def codePrefixCmds : List (List Char) :=
  ["eval \"$(mamba shell hook --shell bash)\"".data,
   "mamba activate abc_runtime".data]

/-- Contents of `self.code_postfix` in `CodeExecutor.__init__` (empty). -/
def codePostfixCmds : List (List Char) := []

/-- The suffix appended to the script path to name the rewritten
sibling script. -/
def executeSuffix : List Char := ".execute.sh".data

/-- The content written to the sibling script: each prefix command on
its own line, the cleaned original content, a newline, then each
postfix command on its own line. -/
def writtenScript (content : List Char) : List Char :=
  (codePrefixCmds.map (fun c => c ++ ['\n'])).flatten
    ++ cleanScriptContent content ++ ['\n']
    ++ (codePostfixCmds.map (fun c => c ++ ['\n'])).flatten

/-- Filesystem / process operations performed by `execute`. -/
inductive FsOp where
  | readF (path : List Char)
  | writeF (path : List Char) (content : List Char)
  | spawnBash (path : List Char)
deriving DecidableEq, Repr

/-- Outcome of the supervised region (everything inside `execute`'s
`try`): either some step raised with a message, or the child ran, the
read loop collected `stdoutRead`, stderr yielded `stderrLines`, and
`interrupted` records whether `self.is_interrupted` was observed set. -/
inductive SpawnOutcome where
  | raised (msg : List Char)
  | completedRun (stdoutRead : List (List Char)) (stderrLines : List (List Char))
      (interrupted : Bool)
deriving DecidableEq, Repr

/-- Environment of one `execute` invocation. -/
structure ExecEnv where
  readResult : Except (List Char) (List Char)
  writeResult : Except (List Char) Unit
  spawn : SpawnOutcome
deriving Repr

/-- A collected stdout line: `f'[stdout] {output.strip()}'`. -/
def stdoutEntry (l : List Char) : List Char :=
  "[stdout] ".data ++ pyStrip l

/-- The noise substrings filtered out of stderr. -/
def stderrNoise : List (List Char) :=
  ["EnvironmentNameNotFound".data,
   "terminal process group".data,
   "no job control".data,
   "shell.bash hook".data]

/-- Keep a stderr line unless it contains a noise substring or is a bare
newline. -/
def keepStderrLine (l : List Char) : Bool :=
  !(stderrNoise.any (fun n => containsSub n l)) && !(l == ['\n'])

def interruptedMarker : List Char := "Process interrupted by user\n".data

def execErrorMarker : List Char := "Execution error: ".data

/-- Model of `CodeExecutor.execute`: read the original script (outside the try),
rewrite it into the `.execute.sh` sibling (outside the try), then spawn
and supervise it; the returned effect log records which filesystem and
process operations were performed.  Inside the supervised region, the
last 10 lines of each stream are retained and stderr noise is
filtered. -/
def execute (path : List Char) (env : ExecEnv) :
    Except (List Char) (List Char) × List FsOp :=
  match env.readResult with
  | .error e => (.error e, [.readF path])
  | .ok content =>
    let target := path ++ executeSuffix
    let written := writtenScript content
    match env.writeResult with
    | .error e => (.error e, [.readF path, .writeF target written])
    | .ok _ =>
      let ops := [.readF path, .writeF target written, .spawnBash target]
      match env.spawn with
      | .raised m => (.ok (execErrorMarker ++ m), ops)
      | .completedRun outs errs intr =>
        let stdout10 := lastN 10 (outs.map stdoutEntry)
        let stderr10 := lastN 10 (errs.filter keepStderrLine)
        let combined := pyJoinNL stdout10 ++ '\n' :: pyJoinNL stderr10
        (.ok (if intr then interruptedMarker ++ combined else combined), ops)

/-- View of the current child process as `poll()` reports it. -/
structure ProcInfo where
  pid : Nat
  exited : Bool
deriving DecidableEq, Repr

/-- The executor's process-management state: `self.current_process` and
`self.is_interrupted`. -/
structure ExecState where
  currentProcess : Option ProcInfo
  isInterrupted : Bool
deriving DecidableEq, Repr

/-- Signals sent by `terminate`. -/
inductive TermAction where
  | sigtermGroup (pid : Nat)
  | sigkillGroup (pid : Nat)
  | termProcOnly
  | killProcOnly
deriving DecidableEq, Repr

/-- How the environment responds during the active branch of
`terminate`: the group exits within the 2 s grace period, or must be
force-killed, or `os.getpgid` raises `ProcessLookupError`, or `killpg`
raises some other error and the per-process fallback is used (with or
without the final `kill`). -/
inductive TermOutcome where
  | gracefulExit
  | forcedKill
  | groupGone
  | fallbackTerm
  | fallbackKill
deriving DecidableEq, Repr

/-- Model of `CodeExecutor.terminate`: no-op when no process is active or it has
already exited; otherwise set `is_interrupted`, signal the process
group with SIGTERM, escalate to SIGKILL after the grace period, fall
back to per-process termination if group signalling fails, and finally
clear `current_process`. -/
def terminate (st : ExecState) (out : TermOutcome) : ExecState × List TermAction :=
  match st.currentProcess with
  | none => (st, [])
  | some p =>
    if p.exited then (st, [])
    else
      let actions :=
        match out with
        | .gracefulExit => [TermAction.sigtermGroup p.pid]
        | .forcedKill => [TermAction.sigtermGroup p.pid, TermAction.sigkillGroup p.pid]
        | .groupGone => []
        | .fallbackTerm => [TermAction.sigtermGroup p.pid, TermAction.termProcOnly]
        | .fallbackKill =>
          [TermAction.sigtermGroup p.pid, TermAction.termProcOnly,
           TermAction.killProcOnly]
      (⟨none, true⟩, actions)

/-! ## The streaming loop (`_stream_logs_with_heartbeat`, log_handler.py)

The generator's main `while True` loop is embedded as a step function
over an explicit per-iteration environment: the clock reading
(`time.time()`, in milliseconds here), the liveness of
`current_thread`, the messages found in `log_queue` at the drain, the
messages that show up during the 0.1 s grace re-check taken when the
thread is dead and the queue looked empty, and the state of
`stop_flag`.  Yields and checkpoint writes become an event list. -/

def MIN_YIELD_INTERVAL : Nat := 100

def HEARTBEAT_INTERVAL : Nat := 10000

def SAVE_INTERVAL : Nat := 30000

/-- One rendered snapshot: the displayed tail, the truncation-banner
count (0 means no banner), the running total of lines seen, and the
liveness flag shown in the stats footer. -/
structure Snapshot where
  display : List String
  truncated : Nat
  total : Nat
  aliveFlag : Bool
deriving DecidableEq, Repr

/-- Observable output of the streaming generator: a yielded snapshot, the
yield made on the stop-signal path, a checkpoint written by
`_save_task_state`, or the final yield (its banner is a cancellation
banner when `stopped` is true, a completion banner otherwise). -/
inductive StreamEvent where
  | snap (s : Snapshot)
  | stopNotice (display : List String)
  | checkpoint (running : Bool) (lineCount : Nat)
  | final (display : List String) (truncated : Nat) (stopped : Bool) (total : Nat)
deriving DecidableEq, Repr

/-- Mutable locals of the loop body. -/
structure LoopState where
  buffer : List String
  lineCount : Nat
  lastYield : Nat
  lastHeartbeat : Nat
  lastSave : Nat
deriving DecidableEq, Repr

/-- Environment observed by one loop iteration. -/
structure IterEnv where
  now : Nat
  alive : Bool
  msgs : List String
  lateMsgs : List String
  stop : Bool
deriving DecidableEq, Repr

/-- The exit condition checked at the top of the loop: the worker thread
is not alive, the queue is empty, and it is still empty after the 0.1 s
grace sleep. -/
def exitNow (e : IterEnv) : Bool :=
  !e.alive && e.msgs.isEmpty && e.lateMsgs.isEmpty

/-- What the batch-drain loop removes from the queue this iteration: the
grace re-check messages when the dead-thread branch was taken, the
queued messages otherwise. -/
def drainedOf (e : IterEnv) : List String :=
  if !e.alive && e.msgs.isEmpty then e.lateMsgs else e.msgs

/-- The message appended to `log_buffer` on the stop-signal path. -/
def stopNoticeMsg : String := "\nℹ️ 停止信号已接收，正在终止任务..."

inductive ExitReason where
  | drained
  | stopped
deriving DecidableEq, Repr

/-- Rendering of one yielded snapshot from the rolling buffer, as in the
`display_lines = log_buffer[-MAX_DISPLAY_LINES:]` block of the source. -/
def mkSnapshot (buffer : List String) (lineCount : Nat) (alive : Bool) : Snapshot :=
  { display := lastN MAX_DISPLAY_LINES buffer
    truncated := truncCount buffer
    total := lineCount
    aliveFlag := alive }

/-- One iteration of the `while True` loop: exit check, batch drain,
heartbeat, periodic checkpoint, debounced yield, stop-signal check. -/
def loopIter (st : LoopState) (e : IterEnv) :
    LoopState × List StreamEvent × Option ExitReason :=
  if exitNow e then (st, [], some .drained)
  else
    let drained := drainedOf e
    let buffer := drainAll MAX_HISTORY_LINES st.buffer drained
    let lineCount := st.lineCount + drained.length
    let heartbeatFired := decide (st.lastHeartbeat + HEARTBEAT_INTERVAL ≤ e.now)
    let lastHeartbeat := if heartbeatFired then e.now else st.lastHeartbeat
    let hasNewLog := !drained.isEmpty || heartbeatFired
    let saveFired := decide (st.lastSave + SAVE_INTERVAL ≤ e.now)
    let lastSave := if saveFired then e.now else st.lastSave
    let saveEvents := if saveFired then [StreamEvent.checkpoint true lineCount] else []
    let yieldFired := hasNewLog && decide (st.lastYield + MIN_YIELD_INTERVAL ≤ e.now)
    let lastYield := if yieldFired then e.now else st.lastYield
    let yieldEvents :=
      if yieldFired then [StreamEvent.snap (mkSnapshot buffer lineCount e.alive)] else []
    if e.stop then
      let buffer2 := buffer ++ [stopNoticeMsg]
      (⟨buffer2, lineCount, lastYield, lastHeartbeat, lastSave⟩,
       saveEvents ++ yieldEvents
         ++ [StreamEvent.stopNotice (lastN MAX_DISPLAY_LINES buffer2)],
       some .stopped)
    else
      (⟨buffer, lineCount, lastYield, lastHeartbeat, lastSave⟩,
       saveEvents ++ yieldEvents, none)

/-- Run the loop over a finite environment trace.  `none` as the exit
reason means the trace ran out while the loop was still going. -/
def runLoop (st : LoopState) : List IterEnv → LoopState × List StreamEvent × Option ExitReason
  | [] => (st, [], none)
  | e :: rest =>
    match loopIter st e with
    | (st1, evts, some r) => (st1, evts, some r)
    | (st1, evts, none) =>
      let out := runLoop st1 rest
      (out.1, evts ++ out.2.1, out.2.2)

/-- The code after the loop: a last unbounded drain of the queue, the
final rendering with its completion or cancellation banner, the final
`_save_task_state` with `running=False`, and the final yield.
`stopSet` is the value of `stop_flag.is_set()` read at this point. -/
def finalPhase (st : LoopState) (finalMsgs : List String) (stopSet : Bool) :
    List StreamEvent :=
  let buffer := st.buffer ++ finalMsgs
  let lineCount := st.lineCount + finalMsgs.length
  [StreamEvent.checkpoint false lineCount,
   StreamEvent.final (lastN MAX_DISPLAY_LINES buffer) (truncCount buffer) stopSet lineCount]

/-- One invocation of `_stream_logs_with_heartbeat`: the timers start at
the generator's start time `t0`, the loop runs over `trace`, and when the
loop exits the final phase runs.  The boolean records whether the
snapshot sequence terminated within the trace. -/
def runStream (t0 : Nat) (trace : List IterEnv) (finalMsgs : List String)
    (finalStop : Bool) : List StreamEvent × Bool :=
  let st0 : LoopState := ⟨[], 0, t0, t0, t0⟩
  match runLoop st0 trace with
  | (st, evts, some _) => (evts ++ finalPhase st finalMsgs finalStop, true)
  | (_, evts, none) => (evts, false)

/-- Is this event a yielded snapshot of the main loop? -/
def isSnapEvent : StreamEvent → Bool
  | .snap _ => true
  | _ => false


/-- A concrete script containing the activation directive three times,
used to instantiate the rewrite properties. -/
def sampleScriptThreeActivations : List Char :=
  ("mamba activate abc_runtime\necho hi\nmamba activate abc_runtime\n"
    ++ "mamba activate abc_runtime").data

/-! ## Lemmas about the rolling buffer -/

theorem lastN_length {α : Type} (n : Nat) (l : List α) :
    (lastN n l).length = min n l.length := by
  simp [lastN]
  omega

theorem lastN_of_le {α : Type} {n : Nat} {l : List α} (h : l.length ≤ n) :
    lastN n l = l := by
  simp [lastN, Nat.sub_eq_zero_of_le h]

theorem lastN_suffix {α : Type} (n : Nat) (l : List α) : lastN n l <:+ l :=
  List.drop_suffix _ _

theorem lastN_lastN {α : Type} (n m : Nat) (l : List α) :
    lastN n (lastN m l) = lastN (min n m) l := by
  unfold lastN
  rw [List.drop_drop, List.length_drop]
  congr 1
  omega

theorem appendBounded_eq_lastN {α : Type} {bound : Nat} {buf : List α}
    (h : buf.length ≤ bound) (x : α) :
    appendBounded bound buf x = lastN bound (buf ++ [x]) := by
  unfold appendBounded
  by_cases hlt : bound < (buf ++ [x]).length
  · rw [if_pos hlt]
  · rw [if_neg hlt, lastN_of_le (by omega)]

theorem lastN_append_lastN {α : Type} (n : Nat) (m l : List α) :
    lastN n (lastN n m ++ l) = lastN n (m ++ l) := by
  unfold lastN
  have hrw : List.drop (m.length - n) m ++ l = (m ++ l).drop (m.length - n) :=
    (List.drop_append_of_le_length (by omega)).symm
  rw [hrw, List.drop_drop]
  simp only [List.length_drop, List.length_append]
  congr 1
  omega

theorem drainAll_eq_lastN {α : Type} (bound : Nat) :
    ∀ (msgs buf : List α), buf.length ≤ bound →
      drainAll bound buf msgs = lastN bound (buf ++ msgs) := by
  intro msgs
  induction msgs with
  | nil =>
      intro buf h
      simp [drainAll, lastN_of_le h]
  | cons x xs ih =>
      intro buf h
      have hstep : drainAll bound buf (x :: xs)
          = drainAll bound (appendBounded bound buf x) xs := rfl
      rw [hstep, appendBounded_eq_lastN h x]
      have hlen : (lastN bound (buf ++ [x])).length ≤ bound := by
        rw [lastN_length]; omega
      rw [ih _ hlen, lastN_append_lastN]
      simp

theorem drainAll_nil_eq_lastN {α : Type} (bound : Nat) (msgs : List α) :
    drainAll bound [] msgs = lastN bound msgs := by
  simpa using drainAll_eq_lastN bound msgs [] (by simp)

theorem drainAll_append {α : Type} (bound : Nat) (buf a b : List α) :
    drainAll bound buf (a ++ b) = drainAll bound (drainAll bound buf a) b :=
  List.foldl_append ..

/-! ## Lemmas about the streaming loop -/

theorem loopIter_exit_iff (st : LoopState) (e : IterEnv) :
    (loopIter st e).2.2.isSome ↔ (exitNow e = true ∨ e.stop = true) := by
  by_cases h1 : exitNow e
  · simp [loopIter, h1]
  · by_cases h2 : e.stop <;> simp [loopIter, h1, h2]

theorem runLoop_terminates_iff (trace : List IterEnv) :
    ∀ st : LoopState, (runLoop st trace).2.2.isSome ↔
      ∃ e ∈ trace, exitNow e = true ∨ e.stop = true := by
  induction trace with
  | nil => intro st; simp [runLoop]
  | cons e rest ih =>
    intro st
    have hiter := loopIter_exit_iff st e
    rcases hit : loopIter st e with ⟨st1, evts, r⟩
    rw [hit] at hiter
    cases r with
    | some r0 =>
      have hcond : exitNow e = true ∨ e.stop = true := by simpa using hiter
      simp only [runLoop, hit]
      simpa using Or.inl hcond
    | none =>
      have hcond : ¬(exitNow e = true ∨ e.stop = true) := by simpa using hiter
      simp only [runLoop, hit]
      simp only [List.mem_cons, exists_eq_or_imp]
      rw [ih st1]
      simp [hcond]

/-! ## Lemmas about the script rewrite -/

theorem pySplitAux_no_newline :
    ∀ (s cur : List Char), '\n' ∉ cur →
      ∀ l ∈ pySplitAux cur s, '\n' ∉ l := by
  intro s
  induction s with
  | nil =>
    intro cur hcur l hl
    simp [pySplitAux] at hl
    subst hl
    simpa using hcur
  | cons c s ih =>
    intro cur hcur l hl
    by_cases hc : c = '\n'
    · subst hc
      simp [pySplitAux] at hl
      rcases hl with hl | hl
      · subst hl; simpa using hcur
      · exact ih [] (by simp) l hl
    · simp [pySplitAux, hc] at hl
      exact ih (c :: cur) (by simp [hcur, Ne.symm hc]) l hl

theorem pySplitNL_no_newline (s : List Char) :
    ∀ l ∈ pySplitNL s, '\n' ∉ l :=
  pySplitAux_no_newline s [] (by simp)

theorem pySplitAux_of_no_newline :
    ∀ (l cur : List Char), '\n' ∉ l →
      pySplitAux cur l = [cur.reverse ++ l] := by
  intro l
  induction l with
  | nil => intro cur _; simp [pySplitAux]
  | cons c l ih =>
    intro cur h
    have hc : ¬(c = '\n') := by
      intro hcontra; exact h (by simp [hcontra])
    simp only [pySplitAux, if_neg hc]
    rw [ih (c :: cur) (fun hm => h (by simp [hm]))]
    simp

theorem pySplitAux_append_newline :
    ∀ (l cur rest : List Char), '\n' ∉ l →
      pySplitAux cur (l ++ '\n' :: rest)
        = (cur.reverse ++ l) :: pySplitAux [] rest := by
  intro l
  induction l with
  | nil => intro cur rest _; simp [pySplitAux]
  | cons c l ih =>
    intro cur rest h
    have hc : ¬(c = '\n') := by
      intro hcontra; exact h (by simp [hcontra])
    simp only [List.cons_append, pySplitAux, if_neg hc]
    show pySplitAux (c :: cur) (l ++ '\n' :: rest) = _
    rw [ih (c :: cur) rest (fun hm => h (by simp [hm]))]
    simp

theorem pySplitNL_pyJoinNL :
    ∀ ls : List (List Char), ls ≠ [] → (∀ l ∈ ls, '\n' ∉ l) →
      pySplitNL (pyJoinNL ls) = ls := by
  intro ls
  induction ls with
  | nil => intro h; exact absurd rfl h
  | cons l ls ih =>
    intro _ hnl
    cases ls with
    | nil =>
      simp only [pyJoinNL, pySplitNL]
      rw [pySplitAux_of_no_newline l [] (hnl l (by simp))]
      simp
    | cons l2 ls2 =>
      have hjoin : pyJoinNL (l :: l2 :: ls2) = l ++ '\n' :: pyJoinNL (l2 :: ls2) := rfl
      rw [hjoin]
      unfold pySplitNL
      rw [pySplitAux_append_newline l [] _ (hnl l (by simp))]
      simp only [List.reverse_nil, List.nil_append, List.cons.injEq, true_and]
      have := ih (by simp) (fun x hx => hnl x (by simp [hx]))
      simpa [pySplitNL] using this

theorem cleanLines_cons (b : Bool) (l : List Char) (ls : List (List Char)) :
    cleanLines b (l :: ls)
      = if isActivationLine l then
          (if b then cleanLines b ls else l :: cleanLines true ls)
        else if isCondaHookLine l then cleanLines b ls
        else l :: cleanLines b ls := rfl

theorem cleanLines_mem :
    ∀ (ls : List (List Char)) (b : Bool), ∀ x ∈ cleanLines b ls, x ∈ ls := by
  intro ls
  induction ls with
  | nil => intro b x hx; simp [cleanLines] at hx
  | cons l ls ih =>
    intro b x hx
    rw [cleanLines_cons] at hx
    by_cases ha : isActivationLine l
    · rw [if_pos ha] at hx
      cases b with
      | true =>
        rw [if_pos rfl] at hx
        exact List.mem_cons_of_mem l (ih true x hx)
      | false =>
        rw [if_neg (by simp)] at hx
        rcases List.mem_cons.mp hx with hx | hx
        · simp [hx]
        · exact List.mem_cons_of_mem l (ih true x hx)
    · rw [if_neg ha] at hx
      by_cases hh : isCondaHookLine l
      · rw [if_pos hh] at hx
        exact List.mem_cons_of_mem l (ih b x hx)
      · rw [if_neg hh] at hx
        rcases List.mem_cons.mp hx with hx | hx
        · simp [hx]
        · exact List.mem_cons_of_mem l (ih b x hx)

theorem cleanLines_idem :
    ∀ (ls : List (List Char)) (b : Bool),
      cleanLines b (cleanLines b ls) = cleanLines b ls := by
  intro ls
  induction ls with
  | nil => intro b; simp [cleanLines]
  | cons l ls ih =>
    intro b
    rw [cleanLines_cons]
    by_cases ha : isActivationLine l
    · rw [if_pos ha]
      cases b with
      | true => rw [if_pos rfl]; exact ih true
      | false =>
        rw [if_neg (by simp), cleanLines_cons, if_pos ha, if_neg (by simp),
          ih true]
    · rw [if_neg ha]
      by_cases hh : isCondaHookLine l
      · rw [if_pos hh]; exact ih b
      · rw [if_neg hh, cleanLines_cons, if_neg ha, if_neg hh, ih b]

theorem cleanLines_true_no_activation :
    ∀ ls : List (List Char),
      (cleanLines true ls).filter isActivationLine = [] := by
  intro ls
  induction ls with
  | nil => simp [cleanLines]
  | cons l ls ih =>
    rw [cleanLines_cons]
    by_cases ha : isActivationLine l
    · rw [if_pos ha, if_pos rfl]; exact ih
    · rw [if_neg ha]
      by_cases hh : isCondaHookLine l
      · rw [if_pos hh]; exact ih
      · rw [if_neg hh, List.filter_cons_of_neg (by simp [ha])]
        exact ih

theorem cleanLines_false_activation :
    ∀ ls : List (List Char),
      (cleanLines false ls).filter isActivationLine
        = (ls.filter isActivationLine).take 1 := by
  intro ls
  induction ls with
  | nil => simp [cleanLines]
  | cons l ls ih =>
    rw [cleanLines_cons]
    by_cases ha : isActivationLine l
    · rw [if_pos ha, if_neg (by simp), List.filter_cons_of_pos ha,
        List.filter_cons_of_pos ha, cleanLines_true_no_activation]
      simp
    · rw [if_neg ha]
      by_cases hh : isCondaHookLine l
      · rw [if_pos hh, List.filter_cons_of_neg (by simp [ha])]
        exact ih
      · rw [if_neg hh, List.filter_cons_of_neg (by simp [ha]),
          List.filter_cons_of_neg (by simp [ha])]
        exact ih

/-! ## Further auxiliary lemmas -/

theorem exitNow_eq_true_iff (e : IterEnv) :
    exitNow e = true ↔ (e.alive = false ∧ e.msgs = [] ∧ e.lateMsgs = []) := by
  simp [exitNow, and_assoc]

theorem displayOf_drainAll {α : Type} (p : List α) :
    lastN MAX_DISPLAY_LINES (drainAll MAX_HISTORY_LINES [] p)
      = lastN MAX_DISPLAY_LINES p := by
  rw [drainAll_nil_eq_lastN, lastN_lastN, Nat.min_eq_left (by decide)]

/-! ## Claim theorems -/

/-- C2, counterexample: publishing `H + 5 = 505` records (with
`H = MAX_HISTORY_LINES = 500` the maximum retained rolling-buffer size)
makes the truncation banner report 400 hidden lines, not the 5 claimed:
the banner counts `len(log_buffer) - MAX_DISPLAY_LINES`, lines hidden
from the 100-line display, not lines evicted from the buffer. -/
theorem c2_counterexample :
    truncCount (drainAll MAX_HISTORY_LINES [] (List.range 505)) = 400 ∧
    (400 : Nat) ≠ 5 := by
  constructor
  · rw [drainAll_nil_eq_lastN]
    unfold truncCount
    rw [lastN_length]
    simp [MAX_HISTORY_LINES, MAX_DISPLAY_LINES]
  · decide

/-- C2 (amended): publishing `H + 5` records into the empty rolling
buffer (with `H = MAX_HISTORY_LINES` the maximum retained buffer size)
leaves exactly `H` records with the oldest 5 evicted first (pure FIFO),
and the emitted snapshot's truncation banner reports
`H - MAX_DISPLAY_LINES = 400` hidden lines — the banner counts lines
hidden from the 100-line display, not the 5 evicted lines. -/
theorem c2_buffer_and_banner {α : Type} (msgs : List α)
    (h : msgs.length = MAX_HISTORY_LINES + 5) :
    drainAll MAX_HISTORY_LINES [] msgs = msgs.drop 5 ∧
    (drainAll MAX_HISTORY_LINES [] msgs).length = MAX_HISTORY_LINES ∧
    truncCount (drainAll MAX_HISTORY_LINES [] msgs) = 400 := by
  rw [drainAll_nil_eq_lastN]
  refine ⟨?_, ?_, ?_⟩
  · unfold lastN
    rw [h]
    have h5 : MAX_HISTORY_LINES + 5 - MAX_HISTORY_LINES = 5 := by omega
    rw [h5]
  · rw [lastN_length, h]
    omega
  · unfold truncCount
    rw [lastN_length, h]
    simp [MAX_HISTORY_LINES, MAX_DISPLAY_LINES]

/-- C2, witness: instantiation of the amended statement at the concrete
record sequence `0, 1, ..., 504`. -/
theorem c2_buffer_and_banner_witness :
    truncCount (drainAll MAX_HISTORY_LINES []
      (List.range (MAX_HISTORY_LINES + 5))) = 400 :=
  (c2_buffer_and_banner (List.range (MAX_HISTORY_LINES + 5)) (by simp)).2.2

/-- C3 (confirmed): for two snapshots of one streaming sequence — the
first rendered after the publish prefix `p1`, the second after the
further records `extra` were drained into the same rolling buffer — the
second buffer is the continuation of the first (`drainAll` composes),
each displayed tail is a contiguous suffix of the publish sequence (so
no record is shown out of publish order and none is duplicated), and the
second display is obtained from the first display followed by the new
records by dropping only from the oldest end. -/
theorem c3_snapshot_order {α : Type} (p1 extra : List α) :
    drainAll MAX_HISTORY_LINES (drainAll MAX_HISTORY_LINES [] p1) extra
        = drainAll MAX_HISTORY_LINES [] (p1 ++ extra) ∧
    lastN MAX_DISPLAY_LINES (drainAll MAX_HISTORY_LINES [] p1) <:+ p1 ∧
    lastN MAX_DISPLAY_LINES (drainAll MAX_HISTORY_LINES [] (p1 ++ extra))
        <:+ p1 ++ extra ∧
    ∃ k, lastN MAX_DISPLAY_LINES (drainAll MAX_HISTORY_LINES [] (p1 ++ extra))
        = (lastN MAX_DISPLAY_LINES (drainAll MAX_HISTORY_LINES [] p1)
            ++ extra).drop k := by
  refine ⟨(drainAll_append ..).symm, ?_, ?_, ?_⟩
  · rw [displayOf_drainAll]
    exact lastN_suffix _ _
  · rw [displayOf_drainAll]
    exact lastN_suffix _ _
  · rw [displayOf_drainAll, displayOf_drainAll]
    unfold lastN
    refine ⟨(p1.length + extra.length - MAX_DISPLAY_LINES)
      - (p1.length - MAX_DISPLAY_LINES), ?_⟩
    have hd : p1.drop (p1.length - MAX_DISPLAY_LINES) ++ extra
        = (p1 ++ extra).drop (p1.length - MAX_DISPLAY_LINES) :=
      (List.drop_append_of_le_length (by omega)).symm
    rw [hd, List.drop_drop]
    simp only [List.length_append]
    congr 1
    omega

/-- C5, counterexample: a streaming run whose single loop iteration sees
the worker thread alive and the stop flag set terminates (the stop-path
`break` followed by the final phase), so the sequence does not terminate
exactly when the worker is no longer alive and the queue is empty: here
it terminates while the worker is still alive. -/
theorem c5_counterexample :
    (runStream 0 [⟨0, true, [], [], true⟩] [] true).2 = true ∧
    (⟨0, true, [], [], true⟩ : IterEnv).alive = true := by
  constructor
  · decide
  · rfl

/-- C5 (amended): one streaming invocation terminates exactly when some
loop iteration observes the stop flag set, or observes the worker dead
with the queue empty (and still empty after the grace re-check); and
whenever it terminates, the event sequence ends with the final
checkpoint written with `running = false` followed by one final snapshot
whose banner is the cancellation banner when the stop flag is set at
that point and the completion banner otherwise. -/
theorem c5_termination_and_final (t0 : Nat) (trace : List IterEnv)
    (finalMsgs : List String) (finalStop : Bool) :
    ((runStream t0 trace finalMsgs finalStop).2 = true ↔
      ∃ e ∈ trace, e.stop = true ∨
        (e.alive = false ∧ e.msgs = [] ∧ e.lateMsgs = [])) ∧
    ((runStream t0 trace finalMsgs finalStop).2 = true →
      ∃ pre d tc n, (runStream t0 trace finalMsgs finalStop).1
        = pre ++ [StreamEvent.checkpoint false n,
                  StreamEvent.final d tc finalStop n]) := by
  have hiff := runLoop_terminates_iff trace ⟨[], 0, t0, t0, t0⟩
  rcases hrun : runLoop ⟨[], 0, t0, t0, t0⟩ trace with ⟨st, evts, r⟩
  rw [hrun] at hiff
  have hclaims : (∃ e ∈ trace, exitNow e = true ∨ e.stop = true) ↔
      (∃ e ∈ trace, e.stop = true ∨
        (e.alive = false ∧ e.msgs = [] ∧ e.lateMsgs = [])) := by
    constructor
    · rintro ⟨e, he, h | h⟩
      · exact ⟨e, he, Or.inr ((exitNow_eq_true_iff e).mp h)⟩
      · exact ⟨e, he, Or.inl h⟩
    · rintro ⟨e, he, h | h⟩
      · exact ⟨e, he, Or.inr h⟩
      · exact ⟨e, he, Or.inl ((exitNow_eq_true_iff e).mpr h)⟩
  cases r with
  | some r0 =>
    constructor
    · simp only [runStream, hrun]
      rw [← hclaims, ← hiff]
      simp
    · intro _
      simp only [runStream, hrun]
      exact ⟨evts, lastN MAX_DISPLAY_LINES (st.buffer ++ finalMsgs),
        truncCount (st.buffer ++ finalMsgs), st.lineCount + finalMsgs.length,
        by simp [finalPhase]⟩
  | none =>
    constructor
    · simp only [runStream, hrun]
      rw [← hclaims, ← hiff]
      simp
    · intro hterm
      simp only [runStream, hrun] at hterm
      exact absurd hterm (by simp)

/-- C5, witness: instantiation at a trace whose single iteration sees
the worker dead and the queue empty, which therefore terminates. -/
theorem c5_termination_and_final_witness :
    (runStream 0 [⟨0, false, [], [], false⟩] [] false).2 = true :=
  (c5_termination_and_final 0 [⟨0, false, [], [], false⟩] [] false).1.mpr
    ⟨⟨0, false, [], [], false⟩, by simp, Or.inr ⟨rfl, rfl, rfl⟩⟩

/-- C6, counterexample: a loop iteration at which the heartbeat interval
has elapsed (`lastHeartbeat = 0`, `now = 10000`) but the last emission
was 50 ms ago (`lastYield = 9950`) emits no snapshot at all — the
heartbeat only marks `has_new_log`, and the 100 ms debounce still blocks
the yield — refuting "a snapshot is emitted ... when the heartbeat
interval elapsed" and leaving a silence window longer than the
heartbeat interval. -/
theorem c6_counterexample :
    (loopIter ⟨["a"], 1, 9950, 0, 0⟩ ⟨10000, true, [], [], false⟩).2.1 = [] ∧
    (⟨["a"], 1, 9950, 0, 0⟩ : LoopState).lastHeartbeat + HEARTBEAT_INTERVAL
      ≤ (⟨10000, true, [], [], false⟩ : IterEnv).now := by
  constructor
  · decide
  · decide

/-- C6 (amended): while the task is alive, a loop iteration emits a
snapshot if and only if (new records were drained this iteration OR the
heartbeat interval elapsed since the last heartbeat mark) AND at least
the 100 ms debounce interval has passed since the last emission.  In
particular, with zero new records a snapshot is still emitted once both
the heartbeat interval and the debounce interval have elapsed, but the
heartbeat alone does not force an emission, so the consumer-observable
silence bound is heartbeat plus debounce, not the heartbeat interval. -/
theorem c6_emission_policy (st : LoopState) (e : IterEnv)
    (halive : e.alive = true) :
    (loopIter st e).2.1.countP isSnapEvent = 1 ↔
      ((e.msgs ≠ [] ∨ st.lastHeartbeat + HEARTBEAT_INTERVAL ≤ e.now) ∧
        st.lastYield + MIN_YIELD_INTERVAL ≤ e.now) := by
  have hexit : exitNow e = false := by simp [exitNow, halive]
  have hdr : drainedOf e = e.msgs := by simp [drainedOf, halive]
  by_cases hs : e.stop <;>
    by_cases hhb : st.lastHeartbeat + HEARTBEAT_INTERVAL ≤ e.now <;>
      by_cases hy : st.lastYield + MIN_YIELD_INTERVAL ≤ e.now <;>
        by_cases hm : e.msgs = [] <;>
          simp [loopIter, hexit, hdr, hs, hhb, hy, hm, isSnapEvent,
            List.countP_cons, List.countP_append, mkSnapshot] <;>
            (try (split <;> simp [isSnapEvent]))

/-- C6, witness: with zero new records, both timers elapsed and the
task alive, a snapshot is emitted. -/
theorem c6_emission_policy_witness :
    (loopIter ⟨[], 0, 0, 0, 0⟩ ⟨10000, true, [], [], false⟩).2.1.countP
      isSnapEvent = 1 :=
  (c6_emission_policy ⟨[], 0, 0, 0, 0⟩ ⟨10000, true, [], [], false⟩ rfl).mpr
    ⟨Or.inr (by decide), by decide⟩

/-- C1, counterexample: the coordinator state after a single Task
creation is identical to the state after a full earlier
start/stop/teardown cycle followed by the same creation — no component
of the task state, the cancellation signal included, advances with each
Task creation, so there is no generation counter by which a stale
monitor could detect that it is obsolete. -/
theorem c1_counterexample :
    applyEvents ⟨false, none, none, false, []⟩
        [CoordEvent.start ⟨true, true, 5, 7⟩]
      = applyEvents ⟨false, none, none, false, []⟩
          [CoordEvent.start ⟨true, true, 1, 2⟩, CoordEvent.stop,
           CoordEvent.taskDone, CoordEvent.start ⟨true, true, 5, 7⟩] := by
  decide

/-- C1 (amended): the cancellation signal is a single shared boolean
with no generation counter.  Every accepted Task creation resets the
boolean to unset at that moment, and once the boolean is set, the only
coordinator events that clear it are the task's own teardown and an
accepted new start — no operation clears it during a task's run. -/
theorem c1_signal_lifecycle (st : CoordState) (r : StartReq) (e : CoordEvent) :
    ((startTask st r).2 = StartResult.started →
      (startTask st r).1.stopFlag = false) ∧
    (st.stopFlag = true → (applyEvent st e).stopFlag = false →
      e = CoordEvent.taskDone ∨
        ∃ r2, e = CoordEvent.start r2 ∧
          (startTask st r2).2 = StartResult.started) := by
  constructor
  · intro hstart
    unfold startTask at hstart ⊢
    by_cases hc : r.configComplete
    · by_cases ha : r.apiKeyPresent
      · by_cases hr : st.taskRunning
        · simp [hc, ha, hr] at hstart
        · simp [hc, ha, hr]
      · simp [hc, ha] at hstart
    · simp [hc] at hstart
  · intro hset hclear
    cases e with
    | start r2 =>
      refine Or.inr ⟨r2, rfl, ?_⟩
      unfold applyEvent startTask at hclear
      unfold startTask
      by_cases hc : r2.configComplete
      · by_cases ha : r2.apiKeyPresent
        · by_cases hr : st.taskRunning
          · simp [hc, ha, hr] at hclear
            rw [hclear] at hset
            exact absurd hset (by simp)
          · simp [hc, ha, hr]
        · simp [hc, ha] at hclear
          rw [hclear] at hset
          exact absurd hset (by simp)
      · simp [hc] at hclear
        rw [hclear] at hset
        exact absurd hset (by simp)
    | stop =>
      exfalso
      unfold applyEvent requestStop at hclear
      by_cases hr : st.taskRunning
      · simp [hr] at hclear
      · simp [hr] at hclear
        rw [hclear] at hset
        exact absurd hset (by simp)
    | taskDone => exact Or.inl rfl

/-- C1, witness: an accepted start from an idle state whose stop flag
is still set leaves the flag unset. -/
theorem c1_signal_lifecycle_witness :
    (startTask ⟨false, none, none, true, []⟩ ⟨true, true, 3, 4⟩).1.stopFlag
      = false :=
  (c1_signal_lifecycle ⟨false, none, none, true, []⟩ ⟨true, true, 3, 4⟩
    CoordEvent.taskDone).1 (by decide)

/-- C7, counterexample: a start request with an incomplete config made
while a Task is active is rejected with the missing-config report, not
with AlreadyRunning — input validation precedes the
`is_task_running()` guard — so not every start made while a Task is
active yields an AlreadyRunning report. -/
theorem c7_counterexample :
    (startTask ⟨true, some 0, some 1, false, []⟩ ⟨false, true, 2, 3⟩).2
        = StartResult.missingConfig ∧
    (⟨true, some 0, some 1, false, []⟩ : CoordState).taskRunning = true ∧
    StartResult.missingConfig ≠ StartResult.alreadyRunning := by
  refine ⟨by decide, rfl, by decide⟩

/-- C7 (amended): every start request made while a Task is active is
rejected synchronously with zero task-state mutation (no counter,
signal, start time, queue or handle is touched), and when the request
passes input validation (config complete, API key present) the report
is AlreadyRunning; requests failing validation are rejected with the
corresponding validation report, likewise without mutation. -/
theorem c7_reject_no_mutation (st : CoordState) (r : StartReq)
    (hrun : st.taskRunning = true) :
    (startTask st r).1 = st ∧
    (r.configComplete = true → r.apiKeyPresent = true →
      (startTask st r).2 = StartResult.alreadyRunning) := by
  constructor
  · unfold startTask
    by_cases hc : r.configComplete
    · by_cases ha : r.apiKeyPresent
      · simp [hc, ha, hrun]
      · simp [hc, ha]
    · simp [hc]
  · intro hc ha
    unfold startTask
    simp [hc, ha, hrun]

/-- C7, witness: instantiation at a running state with a well-formed
request. -/
theorem c7_reject_no_mutation_witness :
    (startTask ⟨true, some 0, some 1, false, []⟩ ⟨true, true, 9, 9⟩).1
        = ⟨true, some 0, some 1, false, []⟩ ∧
    (startTask ⟨true, some 0, some 1, false, []⟩ ⟨true, true, 9, 9⟩).2
        = StartResult.alreadyRunning :=
  ⟨(c7_reject_no_mutation ⟨true, some 0, some 1, false, []⟩
      ⟨true, true, 9, 9⟩ rfl).1,
   (c7_reject_no_mutation ⟨true, some 0, some 1, false, []⟩
      ⟨true, true, 9, 9⟩ rfl).2 rfl rfl⟩

/-- C4 (confirmed): the pre-execution rewrite keeps only the first line
containing the environment-activation directive — the activation lines
of the rewritten script are exactly the first activation line of the
input, so a script containing the directive on 3 lines yields exactly 1
— and the rewrite is idempotent: applying it twice produces the same
output as applying it once. -/
theorem c4_clean_idempotent_first (content : List Char) :
    cleanScriptContent (cleanScriptContent content) = cleanScriptContent content ∧
    (pySplitNL (cleanScriptContent content)).filter isActivationLine
      = ((pySplitNL content).filter isActivationLine).take 1 ∧
    ((pySplitNL content).countP isActivationLine = 3 →
      (pySplitNL (cleanScriptContent content)).countP isActivationLine = 1) := by
  have hact := cleanLines_false_activation (pySplitNL content)
  by_cases hnil : cleanLines false (pySplitNL content) = []
  · have hcs : cleanScriptContent content = [] := by
      unfold cleanScriptContent
      rw [hnil]
      rfl
    have hsplit_empty : pySplitNL ([] : List Char) = [[]] := rfl
    have hfilter_nil : ((pySplitNL content).filter isActivationLine).take 1 = [] := by
      rw [← hact, hnil]
      rfl
    refine ⟨?_, ?_, ?_⟩
    · rw [hcs]
      unfold cleanScriptContent
      rw [hsplit_empty]
      have : cleanLines false [[]] = [[]] := by decide
      rw [this]
      rfl
    · rw [hcs, hsplit_empty, hfilter_nil]
      decide
    · intro hcount
      exfalso
      rw [List.countP_eq_length_filter] at hcount
      have h0 : ((pySplitNL content).filter isActivationLine).take 1 = [] :=
        hfilter_nil
      rcases hflt : (pySplitNL content).filter isActivationLine with _ | ⟨x, xs⟩
      · rw [hflt] at hcount; simp at hcount
      · rw [hflt] at h0; simp at h0
  · have hnonl : ∀ l ∈ cleanLines false (pySplitNL content), '\n' ∉ l := by
      intro l hl
      exact pySplitNL_no_newline content l
        (cleanLines_mem (pySplitNL content) false l hl)
    have hsplit : pySplitNL (cleanScriptContent content)
        = cleanLines false (pySplitNL content) :=
      pySplitNL_pyJoinNL _ hnil hnonl
    refine ⟨?_, ?_, ?_⟩
    · have h1 : cleanScriptContent (cleanScriptContent content)
          = pyJoinNL (cleanLines false (pySplitNL (cleanScriptContent content))) :=
        rfl
      rw [h1, hsplit, cleanLines_idem]
      rfl
    · rw [hsplit, hact]
    · intro hcount
      rw [List.countP_eq_length_filter] at hcount ⊢
      rw [hsplit, hact, List.length_take, hcount]
      decide

/-- C4, witness: a concrete script containing the activation directive
on three lines yields a rewritten script containing it on exactly one
line. -/
theorem c4_clean_idempotent_first_witness :
    (pySplitNL sampleScriptThreeActivations).countP isActivationLine = 3 ∧
    (pySplitNL (cleanScriptContent sampleScriptThreeActivations)).countP
      isActivationLine = 1 :=
  ⟨by decide,
   (c4_clean_idempotent_first sampleScriptThreeActivations).2.2 (by decide)⟩

/-- C9 (confirmed): `terminate()` called when no process is active, or
when the current process has already exited, returns normally as a
no-op: the state is unchanged and no termination signal of any kind is
sent. -/
theorem c9_terminate_idempotent (st : ExecState) (out : TermOutcome)
    (h : st.currentProcess = none ∨
      ∃ p, st.currentProcess = some p ∧ p.exited = true) :
    terminate st out = (st, []) := by
  rcases h with h | ⟨p, hp, hex⟩
  · simp [terminate, h]
  · simp [terminate, hp, hex]

/-- C9, witness: terminating with an already-exited process recorded. -/
theorem c9_terminate_idempotent_witness :
    terminate ⟨some ⟨42, true⟩, false⟩ TermOutcome.gracefulExit
      = (⟨some ⟨42, true⟩, false⟩, []) :=
  c9_terminate_idempotent ⟨some ⟨42, true⟩, false⟩ TermOutcome.gracefulExit
    (Or.inr ⟨⟨42, true⟩, rfl, rfl⟩)

/-- C8, counterexample: an invocation of `execute` whose initial read of
the script file raises (the `open` sits outside the `try` block)
propagates the exception past the executor boundary instead of
returning an error text, so `execute` does not return normally on every
invocation. -/
theorem c8_counterexample :
    (execute "script.sh".data
        ⟨Except.error "No such file or directory".data, Except.ok (),
         SpawnOutcome.completedRun [] [] false⟩).1
      = Except.error "No such file or directory".data := rfl

/-- C8 (amended): provided the initial script read and the
rewritten-sibling write succeed (both sit outside the `try` block),
`execute` never raises: it returns combined stdout+stderr text on
normal completion, the "Process interrupted by user" marker plus the
partial output when cancellation occurred, and the
"Execution error: <message>" text when spawning or stream I/O raised
inside the supervised region — spawn failure is captured into the
result rather than thrown. -/
theorem c8_no_raise_inside (path : List Char) (env : ExecEnv)
    (content : List Char) (hread : env.readResult = Except.ok content)
    (hwrite : env.writeResult = Except.ok ()) :
    (∃ s, (execute path env).1 = Except.ok s) ∧
    (∀ m, env.spawn = SpawnOutcome.raised m →
      (execute path env).1 = Except.ok (execErrorMarker ++ m)) ∧
    (∀ outs errs, env.spawn = SpawnOutcome.completedRun outs errs true →
      ∃ rest, (execute path env).1 = Except.ok (interruptedMarker ++ rest)) ∧
    (∀ outs errs, env.spawn = SpawnOutcome.completedRun outs errs false →
      (execute path env).1 = Except.ok
        (pyJoinNL (lastN 10 (outs.map stdoutEntry)) ++ '\n'
          :: pyJoinNL (lastN 10 (errs.filter keepStderrLine)))) := by
  rcases hsp : env.spawn with m | ⟨outs, errs, intr⟩
  · refine ⟨⟨execErrorMarker ++ m, ?_⟩, ?_, ?_, ?_⟩
    · simp [execute, hread, hwrite, hsp]
    · intro m2 hm2
      cases hm2
      simp [execute, hread, hwrite, hsp]
    · intro outs errs habs
      simp at habs
    · intro outs errs habs
      simp at habs
  · cases intr with
    | true =>
      refine ⟨⟨interruptedMarker
          ++ (pyJoinNL (lastN 10 (outs.map stdoutEntry)) ++ '\n'
            :: pyJoinNL (lastN 10 (errs.filter keepStderrLine))), ?_⟩,
        ?_, ?_, ?_⟩
      · simp [execute, hread, hwrite, hsp]
      · intro m2 hm2
        simp at hm2
      · intro outs2 errs2 h2
        cases h2
        exact ⟨pyJoinNL (lastN 10 (outs.map stdoutEntry)) ++ '\n'
            :: pyJoinNL (lastN 10 (errs.filter keepStderrLine)),
          by simp [execute, hread, hwrite, hsp]⟩
      · intro outs2 errs2 h2
        simp at h2
    | false =>
      refine ⟨⟨pyJoinNL (lastN 10 (outs.map stdoutEntry)) ++ '\n'
          :: pyJoinNL (lastN 10 (errs.filter keepStderrLine)), ?_⟩,
        ?_, ?_, ?_⟩
      · simp [execute, hread, hwrite, hsp]
      · intro m2 hm2
        simp at hm2
      · intro outs2 errs2 h2
        simp at h2
      · intro outs2 errs2 h2
        cases h2
        simp [execute, hread, hwrite, hsp]

/-- C8, witness: a spawn failure is captured into the returned
"Execution error" text. -/
theorem c8_no_raise_inside_witness :
    (execute "s.sh".data
        ⟨Except.ok "echo hi".data, Except.ok (),
         SpawnOutcome.raised "boom".data⟩).1
      = Except.ok (execErrorMarker ++ "boom".data) :=
  ((c8_no_raise_inside "s.sh".data
      ⟨Except.ok "echo hi".data, Except.ok (), SpawnOutcome.raised "boom".data⟩
      "echo hi".data rfl rfl).2.1) "boom".data rfl

/-- C10 (confirmed): `execute` never writes to the original script
path: every write it performs targets the sibling path obtained by
appending ".execute.sh", the written content is exactly the rewritten
script (prefix commands, cleaned content, postfix commands) of the
content read from the original, only that sibling path is ever spawned,
and the sibling path is distinct from the original path. -/
theorem c10_frame (path : List Char) (env : ExecEnv) :
    (∀ p c, FsOp.writeF p c ∈ (execute path env).2 →
      p = path ++ executeSuffix ∧
        ∃ orig, env.readResult = Except.ok orig ∧ c = writtenScript orig) ∧
    (∀ p, FsOp.spawnBash p ∈ (execute path env).2 →
      p = path ++ executeSuffix) ∧
    path ++ executeSuffix ≠ path := by
  have hsufx : executeSuffix.length = 11 := by decide
  refine ⟨?_, ?_, ?_⟩
  · intro p c hmem
    rcases hr : env.readResult with e | content
    · simp [execute, hr] at hmem
    · rcases hw : env.writeResult with e | u
      · simp [execute, hr, hw] at hmem
        exact ⟨hmem.1, content, rfl, hmem.2⟩
      · rcases hspn : env.spawn with m | ⟨o, er, i⟩ <;>
          · simp [execute, hr, hw, hspn] at hmem
            exact ⟨hmem.1, content, rfl, hmem.2⟩
  · intro p hmem
    rcases hr : env.readResult with e | content
    · simp [execute, hr] at hmem
    · rcases hw : env.writeResult with e | u
      · simp [execute, hr, hw] at hmem
      · rcases hspn : env.spawn with m | ⟨o, er, i⟩ <;>
          · simp [execute, hr, hw, hspn] at hmem
            exact hmem
  · intro hcontra
    have hlen := congrArg List.length hcontra
    rw [List.length_append, hsufx] at hlen
    omega

/-- C10, witness: at a concrete path and a successful environment, the
spawned path is the sibling and differs from the original script
path. -/
theorem c10_frame_witness :
    ("demo.sh".data ++ executeSuffix = "demo.sh".data ++ executeSuffix) ∧
    "demo.sh".data ++ executeSuffix ≠ "demo.sh".data :=
  ⟨(c10_frame "demo.sh".data
      ⟨Except.ok "echo ok".data, Except.ok (),
       SpawnOutcome.completedRun [] [] false⟩).2.1
      ("demo.sh".data ++ executeSuffix) (by decide),
   (c10_frame "demo.sh".data
      ⟨Except.ok "echo ok".data, Except.ok (),
       SpawnOutcome.completedRun [] [] false⟩).2.2⟩

end Autom6A
